import Mathlib

/-!
Verification of the minimal bot runner (src/main.py).

We shallowly embed the supervision logic of `MinimalBotRunner`:
the restart loop `run_single_bot`, the stderr classifier
`is_info_message`, the memory watchdog `monitor_memory`, the
registry teardown `stop_process` / `stop_all_processes`, the
up-front validation in `run`, and the spawn command built in
`start_process`.

External effects (process spawning, exit codes, wall-clock time,
the shutdown flag, memory samples) are supplied by oracles; time
advances by one unit per `time.sleep(1)` call and by a per-run
oracle during `process.wait()`.
-/

namespace BotRunner

/-- Fixed setting from `MinimalBotRunner.__init__`: `self.MAX_RESTARTS = 5`. -/
def MAX_RESTARTS : Nat := 5

/-- Fixed setting from `MinimalBotRunner.__init__`: `self.RESTART_DELAY = 10`. -/
def RESTART_DELAY : Nat := 10

/-- Fixed setting from `MinimalBotRunner.__init__`: `self.MEMORY_LIMIT_MB = 400`. -/
def MEMORY_LIMIT_MB : Nat := 400

/-- Environment oracles for the supervision path of one worker.
`spawnOk n` tells whether the n-th `start_process` call succeeds,
`exitCode n` is what `process.wait()` returns for the n-th run,
`runTime n` is the wall-clock duration of the n-th run, and
`shutdown t` is the value of `self.shutdown_requested` at time `t`. -/
structure Env where
  spawnOk : Nat → Bool
  exitCode : Nat → Int
  runTime : Nat → Nat
  shutdown : Nat → Bool

/-- Observable events of the supervision path of one worker in `run_single_bot`.
`spawned i rc t` records a successful `start_process` for run `i`
with `restart_count = rc` at time `t`; `backoffStarted d t` records
entry into the `for _ in range(delay)` sleep loop with `delay = d`;
`interrupted t` records the early `return` taken when
`shutdown_requested` is observed inside that loop; `maxRestartsLog`
is the terminal `"Max restarts reached"` error log. -/
inductive Ev where
  | spawned (runIdx rc t : Nat)
  | exited (code : Int) (t : Nat)
  | completedOk
  | manualStop
  | backoffStarted (delay t : Nat)
  | interrupted (t : Nat)
  | maxRestartsLog
  | spawnFailed
  deriving Repr, DecidableEq

/-- The backoff sleep loop in `run_single_bot`:
`for _ in range(delay): if self.shutdown_requested: return; time.sleep(1)`.
Returns whether the loop was interrupted by shutdown and the time at
which it ended. Each `time.sleep(1)` advances time by one unit. -/
def backoffWait (shutdown : Nat → Bool) : Nat → Nat → Bool × Nat
  | t, 0 => (false, t)
  | t, n + 1 => if shutdown t then (true, t) else backoffWait shutdown (t + 1) n

/-- Result of the supervision path of one worker: the event trace, the final
`restart_count`, and the final time. -/
structure RunResult where
  events : List Ev
  finalCount : Nat
  finalTime : Nat
  deriving Repr, DecidableEq

/-- The `while not self.shutdown_requested and restart_count < self.MAX_RESTARTS`
loop of `run_single_bot`, from loop entry with run index `runIdx`,
`restart_count = rc`, at time `t`. Mirrors the source:
spawn failure breaks out; exit code 0 and the manual-termination codes
130, 143, -15 break out; otherwise `restart_count` is incremented and,
if still below `MAX_RESTARTS`, the linear backoff
`delay = RESTART_DELAY * restart_count` is slept in 1-second steps
re-checking shutdown (an observed shutdown returns immediately);
at `MAX_RESTARTS` the terminal error is logged and the loop exits. -/
def runLoop (env : Env) (runIdx rc t : Nat) : RunResult :=
  if h : env.shutdown t = true ∨ MAX_RESTARTS ≤ rc then
    ⟨[], rc, t⟩
  else if env.spawnOk runIdx = false then
    ⟨[Ev.spawnFailed], rc, t⟩
  else if env.exitCode runIdx = 0 then
    ⟨[Ev.spawned runIdx rc t,
      Ev.exited (env.exitCode runIdx) (t + env.runTime runIdx),
      Ev.completedOk], rc, t + env.runTime runIdx⟩
  else if env.exitCode runIdx = 130 ∨ env.exitCode runIdx = 143 ∨
      env.exitCode runIdx = -15 then
    ⟨[Ev.spawned runIdx rc t,
      Ev.exited (env.exitCode runIdx) (t + env.runTime runIdx),
      Ev.manualStop], rc, t + env.runTime runIdx⟩
  else if h2 : rc + 1 < MAX_RESTARTS then
    match backoffWait env.shutdown (t + env.runTime runIdx)
        (RESTART_DELAY * (rc + 1)) with
    | (true, t2) =>
      ⟨[Ev.spawned runIdx rc t,
        Ev.exited (env.exitCode runIdx) (t + env.runTime runIdx),
        Ev.backoffStarted (RESTART_DELAY * (rc + 1)) (t + env.runTime runIdx),
        Ev.interrupted t2], rc + 1, t2⟩
    | (false, t2) =>
      let rest := runLoop env (runIdx + 1) (rc + 1) t2
      ⟨Ev.spawned runIdx rc t ::
         Ev.exited (env.exitCode runIdx) (t + env.runTime runIdx) ::
         Ev.backoffStarted (RESTART_DELAY * (rc + 1)) (t + env.runTime runIdx) ::
         rest.events,
       rest.finalCount, rest.finalTime⟩
  else
    ⟨[Ev.spawned runIdx rc t,
      Ev.exited (env.exitCode runIdx) (t + env.runTime runIdx),
      Ev.maxRestartsLog], rc + 1, t + env.runTime runIdx⟩
termination_by MAX_RESTARTS - rc
decreasing_by
  simp only [not_or] at h
  omega

/-- `run_single_bot` for one worker: the loop started with
`restart_count = 0` on the first run, at time `t0`. -/
def run_single_bot (env : Env) (t0 : Nat) : RunResult :=
  runLoop env 0 0 t0

/-- The backoff delays that occurred in a trace, in order. -/
def delaysOf (evs : List Ev) : List Nat :=
  evs.filterMap fun e =>
    match e with
    | Ev.backoffStarted d _ => some d
    | _ => none

/-- The number of successful spawns in a trace. -/
def spawnCount (evs : List Ev) : Nat :=
  (evs.filter fun e =>
    match e with
    | Ev.spawned _ _ _ => true
    | _ => false).length

/-- A worker whose process always spawns, always exits with code 137
instantly, with shutdown never requested. -/
def env137 : Env :=
  ⟨fun _ => true, fun _ => 137, fun _ => 0, fun _ => false⟩

/-- A worker whose process always spawns, always exits with code 137
instantly, and whose owner requests shutdown from time 3 onward. -/
def envShut : Env :=
  ⟨fun _ => true, fun _ => 137, fun _ => 0, fun t => decide (3 ≤ t)⟩

/-- A worker whose `start_process` always fails (missing file or launch
error), shutdown never requested. -/
def envFail : Env :=
  ⟨fun _ => false, fun _ => 1, fun _ => 0, fun _ => false⟩

/-- Whether a trace has no `spawned` event after an `interrupted` event:
once the backoff sleep is interrupted by shutdown, `run_single_bot`
returns, so nothing follows in the trace. -/
def noSpawnAfterInterrupt : List Ev → Bool
  | [] => true
  | Ev.interrupted _ :: rest =>
      rest.all fun e =>
        match e with
        | Ev.spawned _ _ _ => false
        | _ => true
  | _ :: rest => noSpawnAfterInterrupt rest

/-! ### stderr classification (`is_info_message`, `monitor_output`) -/

/-- The Python substring test `sub in s` on lists of characters. -/
def containsSub (sub : List Char) : List Char → Bool
  | [] => sub.isEmpty
  | c :: t => List.isPrefixOf sub (c :: t) || containsSub sub t

/-- The Python substring test `sub in s` on strings. -/
def strContains (s sub : String) : Bool :=
  containsSub sub.data s.data

/-- The Python call `message.lower()`, modelled character-wise (the
keywords and test lines in question are ASCII, where both agree). -/
def lowerStr (s : String) : String :=
  ⟨s.data.map Char.toLower⟩

/-- The fixed keyword list of `is_info_message`. -/
def info_keywords : List String :=
  ["info", "debug", "successfully", "started", "initialized", "connected",
   "polling", "running"]

/-- `is_info_message` from the source:
`any(keyword in message.lower() for keyword in info_keywords)`. -/
def is_info_message (message : String) : Bool :=
  info_keywords.any fun keyword => strContains (lowerStr message) keyword

/-- The two severities the stderr reader forwards at. -/
inductive Severity where
  | info
  | error
  deriving Repr, DecidableEq

/-- The stderr branch of `monitor_output`: an informational line is
forwarded verbatim at info severity; any other line is forwarded at
error severity prefixed with the `🚨 ` marker. Takes the already
`strip()`-ped line. -/
def forwardStderrLine (clean_line : String) : Severity × String :=
  if is_info_message clean_line then (Severity.info, clean_line)
  else (Severity.error, "🚨 " ++ clean_line)

/-- The wording of the spec for the classifier, as a predicate: a line is
informational exactly when its lowercase form contains at least one of
the keywords. Used only for comparison with `is_info_message`. -/
def specIsInformational (line : String) : Prop :=
  ∃ k ∈ info_keywords, strContains (lowerStr line) k = true

/-! ### memory watchdog (`monitor_memory`) -/

/-- Observable events of one `memory_check` loop: `sampled i` is the
i-th `memory_info()` call, `warned i` the high-memory warning log,
`terminated i` the `process.terminate()` call, and `stoppedOnError i`
the silent break taken when sampling raises. -/
inductive MemEv where
  | sampled (i : Nat)
  | warned (i : Nat)
  | terminated (i : Nat)
  | stoppedOnError (i : Nat)
  deriving Repr, DecidableEq

/-- Whether a memory event is the `terminate()` call. -/
def isTerminated : MemEv → Bool
  | MemEv.terminated _ => true
  | _ => false

/-- Whether a memory event is the silent stop on a sampling failure. -/
def isStoppedOnError : MemEv → Bool
  | MemEv.stoppedOnError _ => true
  | _ => false

/-- Whether every event satisfying `p` ends the trace (nothing follows it). -/
def stopsTrace (p : MemEv → Bool) : List MemEv → Bool
  | [] => true
  | e :: rest => if p e then rest.isEmpty else stopsTrace p rest

/-- The `while process.poll() is None and not self.shutdown_requested`
loop of `memory_check`, at sample index `i` with `fuel` remaining loop
iterations to consider. `rss i = none` models the inner `except: break`
(sampling raised); `rss i = some m` is the sampled resident size in
bytes. `memory_mb > self.MEMORY_LIMIT_MB` on the float
`rss / 1024 / 1024` is exact for integer `rss` (division by powers of
two), so it is modelled as `MEMORY_LIMIT_MB * 1024 * 1024 < m`.
On an excessive sample the loop warns, terminates the process and
breaks; otherwise it sleeps 30s and re-checks. -/
def memCheckLoop (alive shutdown : Nat → Bool) (rss : Nat → Option Nat) :
    Nat → Nat → List MemEv
  | 0, _ => []
  | fuel + 1, i =>
    if alive i && !shutdown i then
      match rss i with
      | none => [MemEv.stoppedOnError i]
      | some m =>
        if MEMORY_LIMIT_MB * 1024 * 1024 < m then
          [MemEv.sampled i, MemEv.warned i, MemEv.terminated i]
        else
          MemEv.sampled i :: memCheckLoop alive shutdown rss fuel (i + 1)
    else []

/-- The `memory_check` body of `monitor_memory`: `psutil.Process(process.pid)`
may itself raise (`procOk = false`), in which case the outer
`except: pass` swallows it and nothing happens; otherwise the sampling
loop runs. `fuel` bounds how many iterations are observed (the real
loop can run as long as the process lives). -/
def monitor_memory (procOk : Bool) (alive shutdown : Nat → Bool)
    (rss : Nat → Option Nat) (fuel : Nat) : List MemEv :=
  if procOk then memCheckLoop alive shutdown rss fuel 0 else []

/-- A concrete sample stream: sample 2 reads 500 MB resident, all other
samples read 1 KB. -/
def rssSpike : Nat → Option Nat :=
  fun i => some (if i = 2 then 500 * 1024 * 1024 else 1024)

/-! ### registry teardown (`stop_process`, `stop_all_processes`)

The registry `self.current_processes` maps the path of a worker to its
latest process. We model an entry as `(path, alive)` where `alive`
is `process.poll() is None` at teardown time. -/

/-- The Python statement `del self.current_processes[k]` on an association list. -/
def removeKey : List (String × Bool) → String → List (String × Bool)
  | [], _ => []
  | (k, a) :: rest, w => if k = w then removeKey rest w else (k, a) :: removeKey rest w

/-- `dict.get` on the association list model. -/
def lookupReg : List (String × Bool) → String → Option Bool
  | [], _ => none
  | (k, a) :: rest, w => if k = w then some a else lookupReg rest w

/-- `stop_process` from the source: if the worker has a registered
process that is still running (`poll() is None`), terminate (escalating
to kill) and delete the entry; a dead or missing process is left
untouched — in particular its registry entry is NOT deleted. -/
def stop_process (reg : List (String × Bool)) (w : String) : List (String × Bool) :=
  match lookupReg reg w with
  | some alive => if alive then removeKey reg w else reg
  | none => reg

/-- `stop_all_processes` from the source: snapshot the keys, then run
`stop_process` for each. -/
def stop_all_processes (reg : List (String × Bool)) : List (String × Bool) :=
  (reg.map Prod.fst).foldl stop_process reg

/-- A worker whose process always spawns and exits 0 instantly,
shutdown never requested: `run_single_bot` spawns once (inserting a
registry entry at line `self.current_processes[str(file_path)] = process`),
waits until the process exits, logs success, and breaks. -/
def env0 : Env :=
  ⟨fun _ => true, fun _ => 0, fun _ => 0, fun _ => false⟩

/-! ### group start-up validation (`run`) -/

/-- Outcome of the validation phase of `run`: which configured files were
logged as not found, which workers were submitted to the executor, and
whether the early `"No valid files!"` return was taken. -/
structure GroupOutcome where
  excludedLogs : List String
  started : List String
  startupFailed : Bool
  deriving Repr, DecidableEq

/-- The validation phase of `run`: every configured file that exists is
kept; every other file is logged as not found and excluded. If no file
is valid, `run` logs `"No valid files!"` and returns before creating
any future; otherwise it submits `run_single_bot` for exactly the
valid files. -/
def runValidation (fileExists : String → Bool) (bot_files : List String) :
    GroupOutcome :=
  if (bot_files.filter fun f => fileExists f).isEmpty then
    ⟨bot_files.filter fun f => !fileExists f, [], true⟩
  else
    ⟨bot_files.filter fun f => !fileExists f,
     bot_files.filter fun f => fileExists f, false⟩

/-! ### spawn command (`start_process`) -/

/-- An abstract worker file path: its string form `str(file_path)` and
its containing directory `file_path.parent`. -/
structure BotPath where
  path : String
  parent : String
  deriving Repr, DecidableEq

/-- The process-creation call a spawned worker receives. -/
structure SpawnCall where
  argv : List String
  cwd : String
  deriving Repr, DecidableEq

/-- The `subprocess.Popen` invocation of `start_process`:
`[sys.executable, str(file_path)]` with `cwd=file_path.parent`.
`pythonExe` stands for `sys.executable`. -/
def start_process_call (pythonExe : String) (p : BotPath) : SpawnCall :=
  { argv := [pythonExe, p.path], cwd := p.parent }

end BotRunner

/-! ## Theorems -/

namespace BotRunner

/-- C1 (counterexample). For a worker that exits 137 on every run
(`env137`), the backoff delays that actually occur are 10, 20, 30, 40
seconds only — not `RESTART_DELAY * k` for `k = 1 .. MAX_RESTARTS`
(10, 20, 30, 40, 50) as the claim states: there is no fifth backoff and
no 50-second delay. -/
theorem c1_counterexample :
    delaysOf (run_single_bot env137 0).events = [10, 20, 30, 40] ∧
    delaysOf (run_single_bot env137 0).events ≠
      [RESTART_DELAY * 1, RESTART_DELAY * 2, RESTART_DELAY * 3,
       RESTART_DELAY * 4, RESTART_DELAY * 5] := by
  constructor <;>
    simp [run_single_bot, runLoop, env137, backoffWait, delaysOf,
      MAX_RESTARTS, RESTART_DELAY]

/-- C1 (amended). For a worker that exits 137 on every run, the process
is spawned `MAX_RESTARTS = 5` times in total (the initial run plus four
restart attempts); the backoff delay before restart attempt `k` is
`RESTART_DELAY * k` for `k = 1 .. 4` only (10s, 20s, 30s, 40s); after
the fifth run fails, `restart_count` reaches `MAX_RESTARTS`, the
terminal `"Max restarts reached"` error is logged as the last event,
and no fifth restart attempt (no 50s delay, no sixth run) occurs. -/
theorem c1_amended :
    spawnCount (run_single_bot env137 0).events = MAX_RESTARTS ∧
    delaysOf (run_single_bot env137 0).events =
      [RESTART_DELAY * 1, RESTART_DELAY * 2, RESTART_DELAY * 3,
       RESTART_DELAY * 4] ∧
    (run_single_bot env137 0).events.getLast? = some Ev.maxRestartsLog ∧
    (run_single_bot env137 0).finalCount = MAX_RESTARTS := by
  refine ⟨?_, ?_, ?_, ?_⟩ <;>
    simp [run_single_bot, runLoop, env137, backoffWait, delaysOf, spawnCount,
      MAX_RESTARTS, RESTART_DELAY]

/-- Helper for C2: from any loop entry with `restart_count ≤ MAX_RESTARTS`,
the final `restart_count` never exceeds `MAX_RESTARTS`. -/
theorem runLoop_finalCount_le (env : Env) (runIdx rc t : Nat) :
    rc ≤ MAX_RESTARTS → (runLoop env runIdx rc t).finalCount ≤ MAX_RESTARTS := by
  induction runIdx, rc, t using runLoop.induct env with
  | case1 runIdx rc t h =>
    intro hle; rw [runLoop]; simp [dif_pos h]; exact hle
  | case2 runIdx rc t h hsp =>
    intro hle; rw [runLoop]; simp [dif_neg h, hsp]; exact hle
  | case3 runIdx rc t h hsp hc =>
    intro hle; rw [runLoop]; simp [dif_neg h, hsp, hc]; exact hle
  | case4 runIdx rc t h hsp hc0 hcm =>
    intro hle; rw [runLoop]; simp [dif_neg h, hsp, hc0, hcm]; exact hle
  | case5 runIdx rc t h hsp hc0 hcm h2 t2 heq =>
    intro hle; rw [runLoop]; simp [dif_neg h, hsp, hc0, hcm, h2, heq]; omega
  | case6 runIdx rc t h hsp hc0 hcm h2 t2 heq ih =>
    intro hle; rw [runLoop]; simp [dif_neg h, hsp, hc0, hcm, h2, heq]
    exact ih (by omega)
  | case7 runIdx rc t h hsp hc0 hcm h2 =>
    intro hle; rw [runLoop]
    simp only [not_or] at h
    simp [hsp, hc0, hcm, h2, h.1, Nat.not_le.mpr (Nat.lt_of_not_le h.2)]
    omega

/-- Helper for C2: every spawn in the loop happens while
`restart_count < MAX_RESTARTS`; at `MAX_RESTARTS` no spawn occurs. -/
theorem runLoop_spawned_rc_lt (env : Env) (runIdx rc t : Nat) :
    ∀ i r tt, Ev.spawned i r tt ∈ (runLoop env runIdx rc t).events →
      r < MAX_RESTARTS := by
  induction runIdx, rc, t using runLoop.induct env with
  | case1 runIdx rc t h =>
    intro i r tt hmem; rw [runLoop] at hmem; simp [dif_pos h] at hmem
  | case2 runIdx rc t h hsp =>
    intro i r tt hmem; rw [runLoop] at hmem; simp [dif_neg h, hsp] at hmem
  | case3 runIdx rc t h hsp hc =>
    intro i r tt hmem; rw [runLoop] at hmem
    simp [dif_neg h, hsp, hc] at hmem
    simp only [not_or] at h; omega
  | case4 runIdx rc t h hsp hc0 hcm =>
    intro i r tt hmem; rw [runLoop] at hmem
    simp [dif_neg h, hsp, hc0, hcm] at hmem
    simp only [not_or] at h; omega
  | case5 runIdx rc t h hsp hc0 hcm h2 t2 heq =>
    intro i r tt hmem; rw [runLoop] at hmem
    simp [dif_neg h, hsp, hc0, hcm, h2, heq] at hmem
    simp only [not_or] at h; omega
  | case6 runIdx rc t h hsp hc0 hcm h2 t2 heq ih =>
    intro i r tt hmem; rw [runLoop] at hmem
    simp [dif_neg h, hsp, hc0, hcm, h2, heq] at hmem
    rcases hmem with ⟨hi, hr, ht⟩ | hrest
    · simp only [not_or] at h; omega
    · exact ih i r tt hrest
  | case7 runIdx rc t h hsp hc0 hcm h2 =>
    intro i r tt hmem; rw [runLoop] at hmem
    simp only [not_or] at h
    simp [hsp, hc0, hcm, h2, h.1, Nat.not_le.mpr (Nat.lt_of_not_le h.2)] at hmem
    omega

/-- C2. For every worker (every environment), `attempt_count` never
exceeds `MAX_RESTARTS`: the final `restart_count` of `run_single_bot`
is at most `MAX_RESTARTS`, and every spawn happens with
`restart_count < MAX_RESTARTS` — once it reaches `MAX_RESTARTS`, no
further spawn occurs and the worker is permanently stopped. -/
theorem c2_attempt_count_bounded (env : Env) (t0 : Nat) :
    (run_single_bot env t0).finalCount ≤ MAX_RESTARTS ∧
    (∀ i r tt, Ev.spawned i r tt ∈ (run_single_bot env t0).events →
      r < MAX_RESTARTS) :=
  ⟨runLoop_finalCount_le env 0 0 t0 (Nat.zero_le _),
   runLoop_spawned_rc_lt env 0 0 t0⟩

/-- C2 witness: the bound instantiated on the always-137 worker, with
the first spawn of its trace. -/
theorem c2_witness :
    (run_single_bot env137 0).finalCount ≤ MAX_RESTARTS ∧ 0 < MAX_RESTARTS :=
  ⟨(c2_attempt_count_bounded env137 0).1,
   (c2_attempt_count_bounded env137 0).2 0 0 0 (by
     simp [run_single_bot, runLoop, env137, backoffWait, MAX_RESTARTS,
       RESTART_DELAY])⟩

/-- C3. For every exit code, if the process exits with code 0 the worker
transitions to stopped with zero further restart attempts, regardless of
the prior `attempt_count` `rc`: the remaining trace is exactly the spawn,
the exit with code 0 and the success log, and the final `restart_count`
is unchanged. -/
theorem c3_exit_zero_stops (env : Env) (runIdx rc t : Nat)
    (hsd : env.shutdown t = false) (hrc : rc < MAX_RESTARTS)
    (hsp : env.spawnOk runIdx = true) (hec : env.exitCode runIdx = 0) :
    runLoop env runIdx rc t =
      ⟨[Ev.spawned runIdx rc t, Ev.exited 0 (t + env.runTime runIdx),
        Ev.completedOk], rc, t + env.runTime runIdx⟩ := by
  rw [runLoop]
  simp [hsd, hsp, hec, Nat.not_le.mpr hrc]

/-- C3 witness: a worker that exits 0 with prior `attempt_count = 3`. -/
theorem c3_witness :
    runLoop env0 0 3 0 =
      ⟨[Ev.spawned 0 3 0, Ev.exited 0 0, Ev.completedOk], 3, 0⟩ :=
  c3_exit_zero_stops env0 0 3 0 rfl (by decide) rfl rfl

/-- Helper for C4: if the shutdown flag is monotone and set at time `ts`
within the span of the backoff sleep, the sleep loop observes it and
returns no later than `ts`. -/
theorem backoffWait_interrupts (shutdown : Nat → Bool)
    (hmono : ∀ a b, a ≤ b → shutdown a = true → shutdown b = true) :
    ∀ n t0 ts, t0 ≤ ts → ts < t0 + n → shutdown ts = true →
      (backoffWait shutdown t0 n).1 = true ∧
      (backoffWait shutdown t0 n).2 ≤ ts := by
  intro n
  induction n with
  | zero => intro t0 ts h1 h2 hs; omega
  | succ n ih =>
    intro t0 ts h1 h2 hs
    by_cases h : shutdown t0 = true
    · simp [backoffWait, h]; exact h1
    · have hne : t0 ≠ ts := fun e => h (e ▸ hs)
      simp only [backoffWait, h, if_neg]
      simp only [Bool.false_eq_true, if_false]
      exact ih (t0 + 1) ts (by omega) (by omega) hs

/-- Helper for C4: after an interrupted backoff the worker never spawns
again — no `spawned` event follows an `interrupted` event in any trace. -/
theorem noSpawnAfterInterrupt_runLoop (env : Env) (runIdx rc t : Nat) :
    noSpawnAfterInterrupt (runLoop env runIdx rc t).events = true := by
  induction runIdx, rc, t using runLoop.induct env with
  | case1 runIdx rc t h =>
    rw [runLoop]; simp [dif_pos h, noSpawnAfterInterrupt]
  | case2 runIdx rc t h hsp =>
    rw [runLoop]; simp [dif_neg h, hsp, noSpawnAfterInterrupt]
  | case3 runIdx rc t h hsp hc =>
    rw [runLoop]; simp [dif_neg h, hsp, hc, noSpawnAfterInterrupt]
  | case4 runIdx rc t h hsp hc0 hcm =>
    rw [runLoop]; simp [dif_neg h, hsp, hc0, hcm, noSpawnAfterInterrupt]
  | case5 runIdx rc t h hsp hc0 hcm h2 t2 heq =>
    rw [runLoop]; simp [dif_neg h, hsp, hc0, hcm, h2, heq, noSpawnAfterInterrupt]
  | case6 runIdx rc t h hsp hc0 hcm h2 t2 heq ih =>
    rw [runLoop]; simp [dif_neg h, hsp, hc0, hcm, h2, heq, noSpawnAfterInterrupt]
    exact ih
  | case7 runIdx rc t h hsp hc0 hcm h2 =>
    rw [runLoop]
    simp only [not_or] at h
    simp [hsp, hc0, hcm, h2, h.1, Nat.not_le.mpr (Nat.lt_of_not_le h.2),
      noSpawnAfterInterrupt]

/-- C4. A shutdown request issued at time `ts` during the backoff sleep
(the sleep spans `[t0, t0 + n)`) interrupts the wait within one
1-second granularity step — the loop returns interrupted, at a time
no later than `ts` — and the worker reaches its stopped state without
spawning its process again: no trace of `run_single_bot` contains a
spawn after an interruption. -/
theorem c4_shutdown_interrupts_backoff (env : Env) (runIdx rc t : Nat)
    (shutdown : Nat → Bool) (n t0 ts : Nat)
    (hmono : ∀ a b, a ≤ b → shutdown a = true → shutdown b = true)
    (h1 : t0 ≤ ts) (h2 : ts < t0 + n) (hs : shutdown ts = true) :
    ((backoffWait shutdown t0 n).1 = true ∧
      (backoffWait shutdown t0 n).2 ≤ ts) ∧
    noSpawnAfterInterrupt (runLoop env runIdx rc t).events = true :=
  ⟨backoffWait_interrupts shutdown hmono n t0 ts h1 h2 hs,
   noSpawnAfterInterrupt_runLoop env runIdx rc t⟩

/-- C4 witness: a 10-second backoff starting at time 0 with shutdown
requested from time 3 onward. -/
theorem c4_witness :
    ((backoffWait envShut.shutdown 0 10).1 = true ∧
      (backoffWait envShut.shutdown 0 10).2 ≤ 3) ∧
    noSpawnAfterInterrupt (runLoop envShut 0 0 0).events = true :=
  c4_shutdown_interrupts_backoff envShut 0 0 0 envShut.shutdown 10 0 3
    (fun a b hab ha => by
      simp only [envShut, decide_eq_true_eq] at ha ⊢; omega)
    (by decide) (by decide) (by decide)

/-- C5. A stderr line is classified informational exactly when its
lowercase form contains at least one of the fixed keywords (the code
classifier agrees with the keyword-containment predicate on every
line); in particular "Successfully connected" is informational and
"Traceback (most recent call last):" is an error, forwarded at error
severity with the distinguishing `🚨 ` marker. -/
theorem c5_stderr_classification :
    (∀ line : String, is_info_message line = true ↔ specIsInformational line) ∧
    is_info_message "Successfully connected" = true ∧
    is_info_message "Traceback (most recent call last):" = false ∧
    forwardStderrLine "Successfully connected" =
      (Severity.info, "Successfully connected") ∧
    forwardStderrLine "Traceback (most recent call last):" =
      (Severity.error, "🚨 Traceback (most recent call last):") := by
  refine ⟨?_, ?_, ?_, ?_, ?_⟩
  · intro line
    simp [is_info_message, specIsInformational, List.any_eq_true]
  · decide
  · decide
  · rw [forwardStderrLine]
    simp [show is_info_message "Successfully connected" = true from by decide]
  · rw [forwardStderrLine]
    simp [show is_info_message "Traceback (most recent call last):" = false
      from by decide]

/-- C5 witness: the classifier equivalence instantiated on a concrete
line. -/
theorem c5_witness :
    is_info_message "Bot started polling" = true ↔
      specIsInformational "Bot started polling" :=
  c5_stderr_classification.1 "Bot started polling"

/-- Helper for C7: a predicate-stopping trace holds the matching event
at most once. -/
theorem stopsTrace_countP_le (p : MemEv → Bool) :
    ∀ l : List MemEv, stopsTrace p l = true → l.countP p ≤ 1 := by
  intro l
  induction l with
  | nil => intro _; simp
  | cons e rest ih =>
    intro h
    rw [stopsTrace] at h
    by_cases hp : p e
    · rw [if_pos hp] at h
      have : rest = [] := List.isEmpty_iff.mp h
      subst this
      simp [List.countP_cons, hp]
    · rw [if_neg hp] at h
      simp [List.countP_cons, hp]
      exact ih h

/-- Helper for C7: once `terminate()` fires, the sampling loop ends —
nothing follows the `terminated` event. -/
theorem memCheckLoop_stops_terminated (alive shutdown : Nat → Bool)
    (rss : Nat → Option Nat) :
    ∀ fuel i,
      stopsTrace isTerminated (memCheckLoop alive shutdown rss fuel i) = true := by
  intro fuel
  induction fuel with
  | zero => intro i; simp [memCheckLoop, stopsTrace]
  | succ fuel ih =>
    intro i
    rw [memCheckLoop]
    by_cases hg : (alive i && !shutdown i) = true
    · rw [if_pos hg]
      cases hr : rss i with
      | none => simp [stopsTrace, isTerminated]
      | some m =>
        by_cases hm : MEMORY_LIMIT_MB * 1024 * 1024 < m
        · simp [hm, stopsTrace, isTerminated]
        · simp only [hm, if_false]
          simp [stopsTrace, isTerminated]
          exact ih (i + 1)
    · rw [if_neg hg]; simp [stopsTrace]

/-- Helper for C7: a sampling failure silently ends the loop — nothing
follows the `stoppedOnError` event. -/
theorem memCheckLoop_stops_onError (alive shutdown : Nat → Bool)
    (rss : Nat → Option Nat) :
    ∀ fuel i,
      stopsTrace isStoppedOnError (memCheckLoop alive shutdown rss fuel i) = true := by
  intro fuel
  induction fuel with
  | zero => intro i; simp [memCheckLoop, stopsTrace]
  | succ fuel ih =>
    intro i
    rw [memCheckLoop]
    by_cases hg : (alive i && !shutdown i) = true
    · rw [if_pos hg]
      cases hr : rss i with
      | none => simp [stopsTrace, isStoppedOnError]
      | some m =>
        by_cases hm : MEMORY_LIMIT_MB * 1024 * 1024 < m
        · simp [hm, stopsTrace, isStoppedOnError]
        · simp only [hm, if_false]
          simp [stopsTrace, isStoppedOnError]
          exact ih (i + 1)
    · rw [if_neg hg]; simp [stopsTrace]

/-- Helper for C7: any sample the loop actually took whose value exceeds
the ceiling triggers the `terminate()` call for that same sample. -/
theorem memCheckLoop_trigger (alive shutdown : Nat → Bool)
    (rss : Nat → Option Nat) :
    ∀ fuel i j m, MemEv.sampled j ∈ memCheckLoop alive shutdown rss fuel i →
      rss j = some m → MEMORY_LIMIT_MB * 1024 * 1024 < m →
      MemEv.terminated j ∈ memCheckLoop alive shutdown rss fuel i := by
  intro fuel
  induction fuel with
  | zero => intro i j m hmem; rw [memCheckLoop] at hmem; simp at hmem
  | succ fuel ih =>
    intro i j m hmem hj hm
    rw [memCheckLoop] at hmem ⊢
    by_cases hg : (alive i && !shutdown i) = true
    · rw [if_pos hg] at hmem ⊢
      revert hmem
      cases hr : rss i with
      | none => intro hmem; simp at hmem
      | some m0 =>
        intro hmem
        dsimp only at hmem ⊢
        by_cases hlim : MEMORY_LIMIT_MB * 1024 * 1024 < m0
        · rw [if_pos hlim] at hmem ⊢
          simp at hmem
          simp [hmem]
        · rw [if_neg hlim] at hmem ⊢
          simp at hmem
          rcases hmem with hji | hrest
          · subst hji
            rw [hj] at hr
            cases hr
            exact absurd hm hlim
          · exact List.mem_cons_of_mem _ (ih (i + 1) j m hrest hj hm)
    · rw [if_neg hg] at hmem; simp at hmem

/-- C7. For every watched process instance: `terminate()` is called at
most once and ends the sampling (no further sample follows it); a
sampling failure silently ends the watchdog (nothing follows it, no
error propagates); and whenever a taken sample exceeds the 400 MB
ceiling, `terminate()` is invoked for it — together: one-shot
enforcement, exactly one `terminate()` when a sample exceeds. -/
theorem c7_memory_watchdog (procOk : Bool) (alive shutdown : Nat → Bool)
    (rss : Nat → Option Nat) (fuel : Nat) :
    (monitor_memory procOk alive shutdown rss fuel).countP isTerminated ≤ 1 ∧
    stopsTrace isTerminated (monitor_memory procOk alive shutdown rss fuel) = true ∧
    stopsTrace isStoppedOnError (monitor_memory procOk alive shutdown rss fuel) = true ∧
    (∀ j m, MemEv.sampled j ∈ monitor_memory procOk alive shutdown rss fuel →
      rss j = some m → MEMORY_LIMIT_MB * 1024 * 1024 < m →
      MemEv.terminated j ∈ monitor_memory procOk alive shutdown rss fuel) := by
  unfold monitor_memory
  by_cases hp : procOk = true
  · rw [if_pos hp]
    exact ⟨stopsTrace_countP_le _ _
        (memCheckLoop_stops_terminated alive shutdown rss fuel 0),
      memCheckLoop_stops_terminated alive shutdown rss fuel 0,
      memCheckLoop_stops_onError alive shutdown rss fuel 0,
      fun j m => memCheckLoop_trigger alive shutdown rss fuel 0 j m⟩
  · rw [if_neg hp]
    exact ⟨by simp, by simp [stopsTrace], by simp [stopsTrace], by simp⟩

/-- C7 witness: a process whose third sample reads 500 MB is terminated
exactly once, at that sample. -/
theorem c7_witness :
    (monitor_memory true (fun _ => true) (fun _ => false) rssSpike 10).countP
        isTerminated = 1 ∧
    MemEv.terminated 2 ∈
      monitor_memory true (fun _ => true) (fun _ => false) rssSpike 10 := by
  constructor
  · decide
  · exact (c7_memory_watchdog true (fun _ => true) (fun _ => false)
        rssSpike 10).2.2.2 2 (500 * 1024 * 1024) (by decide) (by decide)
      (by decide)

/-- Helper for C8: deleting a key is filtering it out. -/
theorem removeKey_eq_filter (w : String) :
    ∀ reg, removeKey reg w = reg.filter fun p => !(p.1 == w) := by
  intro reg
  induction reg with
  | nil => rfl
  | cons e rest ih =>
    obtain ⟨k, a⟩ := e
    rw [removeKey, List.filter_cons]
    by_cases hk : k = w
    · subst hk; simp [ih]
    · simp [hk, ih]

/-- Helper for C8: with distinct keys, a lookup finds the value of a
member entry. -/
theorem lookupReg_of_mem_nodup :
    ∀ (reg : List (String × Bool)) (w : String) (a : Bool),
      (reg.map Prod.fst).Nodup → (w, a) ∈ reg → lookupReg reg w = some a := by
  intro reg
  induction reg with
  | nil => intro w a _ h; simp at h
  | cons e rest ih =>
    intro w a hnd hmem
    obtain ⟨k, b⟩ := e
    have hnd' : k ∉ rest.map Prod.fst ∧ (rest.map Prod.fst).Nodup := by
      simpa using hnd
    rw [lookupReg]
    rcases List.mem_cons.mp hmem with he | hrest
    · injection he with hw hb
      rw [if_pos hw.symm]
      exact congrArg some hb.symm
    · by_cases hk : k = w
      · subst hk
        exfalso
        exact hnd'.1 (List.mem_map_of_mem Prod.fst hrest)
      · rw [if_neg hk]
        exact ih w a hnd'.2 hrest

/-- Helper for C8: after `stop_process` has been folded over a key list
covering every live entry, no live entry remains. -/
theorem foldl_stop_process_no_live :
    ∀ (keys : List String) (reg : List (String × Bool)),
      (reg.map Prod.fst).Nodup →
      (∀ p ∈ reg, p.2 = true → p.1 ∈ keys) →
      ∀ p ∈ keys.foldl stop_process reg, p.2 = false := by
  intro keys
  induction keys with
  | nil =>
    intro reg hnd hlive p hp
    simp only [List.foldl_nil] at hp
    by_contra hne
    have hpt : p.2 = true := by
      cases hb : p.2
      · exact absurd hb hne
      · rfl
    exact absurd (hlive p hp hpt) (List.not_mem_nil _)
  | cons k ks ih =>
    intro reg hnd hlive p hp
    simp only [List.foldl_cons] at hp
    refine ih (stop_process reg k) ?_ ?_ p hp
    · unfold stop_process
      cases lookupReg reg k with
      | none => exact hnd
      | some alv =>
        cases alv
        · exact hnd
        · simp only [if_pos]
          rw [removeKey_eq_filter]
          exact hnd.sublist (List.Sublist.map Prod.fst (List.filter_sublist reg))
    · intro q hq hqt
      unfold stop_process at hq
      cases hlk : lookupReg reg k with
      | none =>
        rw [hlk] at hq
        have hin : q.1 ∈ k :: ks := hlive q hq hqt
        rcases List.mem_cons.mp hin with he | hks
        · exfalso
          have : (k, true) ∈ reg := by
            have : q = (k, true) := by
              obtain ⟨q1, q2⟩ := q
              simp only at he hqt
              rw [he] at *
              rw [hqt] at *
            exact this ▸ hq
          rw [lookupReg_of_mem_nodup reg k true hnd this] at hlk
          simp at hlk
        · exact hks
      | some alv =>
        rw [hlk] at hq
        cases alv
        · simp only [if_neg] at hq
          have hin : q.1 ∈ k :: ks := hlive q hq hqt
          rcases List.mem_cons.mp hin with he | hks
          · exfalso
            have : (k, true) ∈ reg := by
              have : q = (k, true) := by
                obtain ⟨q1, q2⟩ := q
                simp only at he hqt
                rw [he] at *
                rw [hqt] at *
              exact this ▸ hq
            rw [lookupReg_of_mem_nodup reg k true hnd this] at hlk
            simp at hlk
          · exact hks
        · simp only [if_pos] at hq
          rw [removeKey_eq_filter] at hq
          have := List.mem_filter.mp hq
          have hne : ¬(q.1 = k) := by simpa using this.2
          have hin : q.1 ∈ k :: ks := hlive q this.1 hqt
          rcases List.mem_cons.mp hin with he | hks
          · exact absurd he hne
          · exact hks

/-- C8 (counterexample). One worker that exits 0: its supervision path
spawns once — inserting the registry entry — and returns after the
process exits, so at teardown the registry holds one dead entry; the
final `stop_all_processes` of `run` skips dead processes (their entries
are never deleted), leaving the registry non-empty after `run`
completes. -/
theorem c8_counterexample :
    spawnCount (run_single_bot env0 0).events = 1 ∧
    stop_all_processes [("enze.py", false)] = [("enze.py", false)] ∧
    stop_all_processes [("enze.py", false)] ≠ ([] : List (String × Bool)) := by
  refine ⟨?_, by decide, by decide⟩
  simp [run_single_bot, runLoop, env0, spawnCount, MAX_RESTARTS]

/-- C8 (amended). When `run` completes and `stop_all_processes` has run
over a registry with distinct keys, no remaining entry refers to a live
process: every entry whose process still ran was terminated and
deleted; only entries of already-exited processes can remain. -/
theorem c8_amended_no_live (reg : List (String × Bool))
    (hnd : (reg.map Prod.fst).Nodup) :
    ∀ p ∈ stop_all_processes reg, p.2 = false := by
  unfold stop_all_processes
  exact foldl_stop_process_no_live (reg.map Prod.fst) reg hnd
    (fun p hp _ => List.mem_map_of_mem Prod.fst hp)

/-- C8 witness: a registry with one live and one dead entry keeps only
the dead one, which is not alive. -/
theorem c8_witness :
    (("b", false) : String × Bool).2 = false ∧
    stop_all_processes [("a", true), ("b", false)] = [("b", false)] :=
  ⟨c8_amended_no_live [("a", true), ("b", false)] (by decide) ("b", false)
      (by decide),
   by decide⟩

/-- C9. The group validates the configured worker list up front: every
configured file that does not exist is logged as excluded and is never
among the started workers; every started worker exists; and if no
configured file exists, the startup failure is reported and no worker
is started. -/
theorem c9_upfront_validation (fileExists : String → Bool)
    (bot_files : List String) :
    (∀ f ∈ bot_files, fileExists f = false →
        f ∈ (runValidation fileExists bot_files).excludedLogs ∧
        f ∉ (runValidation fileExists bot_files).started) ∧
    (∀ f ∈ (runValidation fileExists bot_files).started, fileExists f = true) ∧
    ((bot_files.filter fun f => fileExists f) = [] →
        (runValidation fileExists bot_files).startupFailed = true ∧
        (runValidation fileExists bot_files).started = []) := by
  unfold runValidation
  by_cases h : ((bot_files.filter fun f => fileExists f).isEmpty : Prop)
  · rw [if_pos h]
    refine ⟨?_, ?_, ?_⟩
    · intro f hf hne
      exact ⟨List.mem_filter.mpr ⟨hf, by simp [hne]⟩, by simp⟩
    · intro f hf
      simp at hf
    · intro _
      exact ⟨rfl, rfl⟩
  · rw [if_neg h]
    refine ⟨?_, ?_, ?_⟩
    · intro f hf hne
      refine ⟨List.mem_filter.mpr ⟨hf, by simp [hne]⟩, ?_⟩
      intro hmem
      have := (List.mem_filter.mp hmem).2
      rw [hne] at this
      exact Bool.noConfusion this
    · intro f hf
      exact (List.mem_filter.mp hf).2
    · intro hemp
      exact absurd
        (by simp [hemp] : (bot_files.filter fun f => fileExists f).isEmpty = true) h

/-- C9 witness: a single configured worker whose file is missing is
excluded and the group reports startup failure with nothing started. -/
theorem c9_witness :
    ("enze.py" ∈ (runValidation (fun _ => false) ["enze.py"]).excludedLogs ∧
      "enze.py" ∉ (runValidation (fun _ => false) ["enze.py"]).started) ∧
    (runValidation (fun _ => false) ["enze.py"]).startupFailed = true ∧
    (runValidation (fun _ => false) ["enze.py"]).started = [] :=
  ⟨(c9_upfront_validation (fun _ => false) ["enze.py"]).1 "enze.py"
      (by decide) rfl,
   (c9_upfront_validation (fun _ => false) ["enze.py"]).2.2 rfl⟩

/-- C10. Every spawned worker process is the supervisor interpreter
(`sys.executable`) invoked with the worker file path as its sole
argument, with the working directory set to the containing directory of
the file; the head of the command is always the interpreter — the
worker file itself is only ever an argument, never the executed
program (unless the path literally equals the interpreter path). -/
theorem c10_spawn_command (pythonExe : String) (p : BotPath) :
    (start_process_call pythonExe p).argv = [pythonExe, p.path] ∧
    (start_process_call pythonExe p).argv.head? = some pythonExe ∧
    (start_process_call pythonExe p).argv.drop 1 = [p.path] ∧
    (start_process_call pythonExe p).cwd = p.parent ∧
    ((start_process_call pythonExe p).argv.head? = some p.path →
      p.path = pythonExe) := by
  refine ⟨rfl, rfl, rfl, rfl, fun h => ?_⟩
  simp [start_process_call] at h
  exact h.symm

/-- C10 witness: the command built for a concrete worker file. -/
theorem c10_witness :
    (start_process_call "python3" ⟨"bots/enze.py", "bots"⟩).argv =
      ["python3", "bots/enze.py"] ∧
    (start_process_call "python3" ⟨"bots/enze.py", "bots"⟩).cwd = "bots" :=
  ⟨(c10_spawn_command "python3" ⟨"bots/enze.py", "bots"⟩).1,
   (c10_spawn_command "python3" ⟨"bots/enze.py", "bots"⟩).2.2.2.1⟩

/-- C6. On spawn failure (`start_process` returned `None`: the target
file is missing or the OS refused to launch), the worker goes directly
to stopped: the trace is the single spawn-failure log, no restart
attempt is consumed (`restart_count` unchanged) and no retry occurs. -/
theorem c6_spawn_failure (env : Env) (runIdx rc t : Nat)
    (hsd : env.shutdown t = false) (hrc : rc < MAX_RESTARTS)
    (hsp : env.spawnOk runIdx = false) :
    runLoop env runIdx rc t = ⟨[Ev.spawnFailed], rc, t⟩ := by
  rw [runLoop]
  simp [hsd, hsp, Nat.not_le.mpr hrc]

/-- C6 witness: a worker whose spawn fails with prior
`attempt_count = 2`. -/
theorem c6_witness :
    runLoop envFail 0 2 0 = ⟨[Ev.spawnFailed], 2, 0⟩ :=
  c6_spawn_failure envFail 0 2 0 rfl (by decide) rfl

end BotRunner
